import Mathlib

/-!
Verification of the license/session authentication engine of the
`uselessgoddess/license` repository against its natural-language
specification.

The Rust source is shallowly embedded: timestamps (`chrono` naive
datetimes, compared at second resolution by `num_seconds`) become `Int`
seconds; the durable license table becomes a list of rows searched by
primary key (`find_by_id` = first row with the matching key); the
`DashMap` session registry and download-token registry become
association lists; fallible database access is an `Option` around the
row list (`none` = storage failure).  Each definition mirrors one
function of the source, named after it.
-/

/-- A row of the `licenses` table
(src/src/entities/license.rs / src/src/entity/license usage). -/
structure LicenseModel where
  key : String
  tg_user_id : Int
  is_blocked : Bool
  expires_at : Int
  created_at : Int
  hwid_hash : Option String
  max_sessions : Nat
deriving Repr, DecidableEq

/-- Errors of src/src/error.rs that the embedded operations produce. -/
inductive Error where
  | LicenseNotFound
  | LicenseInvalid
  | PromoInactive
  | PromoClaimed
  | Storage
deriving Repr, DecidableEq

/-- `find_by_id(key)`: first row whose primary key matches. -/
def findLicense (rows : List LicenseModel) (key : String) :
    Option LicenseModel :=
  rows.find? (fun l => l.key == key)

/-- `LicenseService::validate` (src/src/services/license.rs:72-84,
identical to `License::validate` in src/src/sv/license.rs:63-75):
absent key fails with `LicenseNotFound`; a found row fails with
`LicenseInvalid` when `is_blocked || expires_at < now`; otherwise the
row is returned. -/
def validate (rows : List LicenseModel) (key : String) (now : Int) :
    Except Error LicenseModel :=
  match findLicense rows key with
  | none => .error .LicenseNotFound
  | some license =>
    if license.is_blocked || decide (license.expires_at < now) then
      .error .LicenseInvalid
    else
      .ok license

/-- The new expiry computed by `extend`:
`base_time = if expires_at < now { now } else { expires_at }` plus
`days` days of 86400 seconds (src/src/services/license.rs:99-101). -/
def extendExp (expires_at : Int) (days : Nat) (now : Int) : Int :=
  (if expires_at < now then now else expires_at) + 86400 * (days : Int)

/-- The row update performed by `extend`: the row with the given primary
key gets the new expiry and `is_blocked = false`; all other rows are
untouched (src/src/services/license.rs:103-106). -/
def applyExtend (newExp : Int) (key : String) (rows : List LicenseModel) :
    List LicenseModel :=
  rows.map (fun l =>
    if l.key == key then { l with expires_at := newExp, is_blocked := false }
    else l)

/-- `LicenseService::extend` (src/src/services/license.rs:87-110,
identical to src/src/sv/license.rs:77-100): read the row, compute the
new expiry from `max(now, expires_at)`, clear `blocked`, write back. -/
def extend (rows : List LicenseModel) (key : String) (days : Nat)
    (now : Int) : Except Error (List LicenseModel × Int) :=
  match findLicense rows key with
  | none => .error .LicenseNotFound
  | some license =>
    .ok (applyExtend (extendExp license.expires_at days now) key rows,
        extendExp license.expires_at days now)

/-- An in-memory session record (src/src/state.rs:20-26). -/
structure Session where
  session_id : String
  hwid_hash : Option String
  last_seen : Int
deriving Repr, DecidableEq

/-- The `DashMap<String, Vec<Session>>` session registry
(src/src/state.rs:28), embedded as an association list. -/
abbrev Sessions : Type := List (String × List Session)

/-- `sessions.get(&key)`: the value of the first entry for `key`. -/
def getSessions (st : Sessions) (key : String) : Option (List Session) :=
  (st.find? (fun p => p.1 == key)).map (fun p => p.2)

/-- `sessions.insert`-style write: replace the first entry for `key`, or
append a fresh entry when the key is absent. -/
def setSessions (st : Sessions) (key : String) (v : List Session) :
    Sessions :=
  match st with
  | [] => [(key, v)]
  | p :: rest =>
    if p.1 == key then (key, v) :: rest
    else p :: setSessions rest key v

/-- `AppState::drop_sessions` (src/src/state.rs:230-232):
`sessions.remove(key)` removes every entry for the key. -/
def drop_sessions (st : Sessions) (key : String) : Sessions :=
  st.filter (fun p => p.1 != key)

/-- The fast-path membership test: does a session with this exact
`session_id` live under the key (src/src/handlers.rs:74-75)? -/
def sessionLive (st : Sessions) (key sid : String) : Bool :=
  match getSessions st key with
  | some sl => sl.any (fun s => s.session_id == sid)
  | none => false

/-- The fast-path refresh: `iter_mut().find(...)` followed by
`sess.last_seen = now` updates the first session with the given id
(src/src/handlers.rs:75-76). -/
def touchFirst : List Session → String → Int → List Session
  | [], _, _ => []
  | s :: rest, sid, now =>
    if s.session_id == sid then { s with last_seen := now } :: rest
    else s :: touchFirst rest sid now

/-- Fast-path update of the whole registry: refresh the first matching
session under the key, touching nothing else. -/
def touchSessions (st : Sessions) (key sid : String) (now : Int) :
    Sessions :=
  match getSessions st key with
  | some sl => setSessions st key (touchFirst sl sid now)
  | none => st

/-- The inline GC of the heartbeat slow path
(src/src/handlers.rs:123-124): keep sessions with
`(now - last_seen).num_seconds() < timeout`. -/
def liveFilter (sl : List Session) (now timeout : Int) : List Session :=
  sl.filter (fun s => decide (now - s.last_seen < timeout))

/-- `AppState::gc_sessions` (src/src/state.rs:220-228): filter each
key's sessions by the idle timeout and drop keys whose list became
empty. -/
def gc_sessions (st : Sessions) (now timeout : Int) : Sessions :=
  (st.map (fun p => (p.1, liveFilter p.2 now timeout))).filter
    (fun p => !p.2.isEmpty)

/-- Heartbeat runtime configuration (src/src/state.rs:40-62): only the
session idle timeout matters to the embedded handler. -/
structure Config where
  session_lifetime : Int
deriving Repr, DecidableEq

/-- FNV-1a over a byte sequence, computed in `u64` arithmetic
(src/src/handlers.rs:55-63): start from the offset basis, xor each byte
in, multiply by the FNV prime mod 2^64. -/
def fnv1a (bytes : List Nat) : Nat :=
  bytes.foldl (fun h b => ((h ^^^ b) * 0x100000001b3) % (2 ^ 64))
    0xcbf29ce484222325

/-- Reinterpret a `u64` value as an `i64` (the `hash as i64` cast). -/
def toI64 (n : Nat) : Int :=
  if n < 2 ^ 63 then (n : Int) else (n : Int) - 2 ^ 64

/-- `generate_magic(session_id, secret)` (src/src/handlers.rs:54-63):
FNV-1a over the UTF-8 bytes of `session_id ++ secret`, cast to `i64`. -/
def generate_magic (session_id secret : String) : Int :=
  toI64 (fnv1a (((session_id ++ secret).toUTF8.data.toList).map
    (fun b => b.toNat)))

/-- The heartbeat responses of src/src/handlers.rs, carrying the data
each `HeartbeatRes` variant reports. -/
inductive HbRes where
  /-- 200, `{success: true, magic_token}`. -/
  | ok (magic : Int)
  /-- 401, "Invalid license" (key not found). -/
  | invalidKey
  /-- 403, "License expired or blocked". -/
  | expiredOrBlocked
  /-- 403, "HWID mismatch". -/
  | hwidMismatch
  /-- 409, "Session limit reached (cur/max)". -/
  | limitReached (cur maxs : Nat)
  /-- 500, "Internal error". -/
  | internal
deriving Repr, DecidableEq

/-- The HTTP status paired with each heartbeat response
(src/src/handlers.rs:77,87,94,100,109,129,157). -/
def statusCode : HbRes → Nat
  | .ok _ => 200
  | .invalidKey => 401
  | .expiredOrBlocked => 403
  | .hwidMismatch => 403
  | .limitReached _ _ => 409
  | .internal => 500

/-- The durable license store as seen over a fallible connection:
`none` models a storage failure (any `DbErr`). -/
abbrev Db : Type := Option (List LicenseModel)

/-- `LicenseService::validate` called over the fallible connection:
a storage failure surfaces as `Error.Storage`. -/
def dbValidate (db : Db) (key : String) (now : Int) :
    Except Error LicenseModel :=
  match db with
  | none => .error .Storage
  | some rows => validate rows key now

/-- `LicenseService::bind_hwid` (src/src/services/license.rs:126-136):
set `hwid_hash` on the row with the given key.  The heartbeat handler
ignores its result (`let _ = ...`). -/
def bind_hwid (db : Db) (key hwid : String) : Db :=
  db.map (fun rows => rows.map (fun l =>
    if l.key == key then { l with hwid_hash := some hwid } else l))

/-- The full observable outcome of one heartbeat request: the response,
the session registry afterwards, and the license store afterwards. -/
structure HbOut where
  res : HbRes
  sessions : Sessions
  db : Db
deriving DecidableEq

/-- Steps 4-5 of the slow path (src/src/handlers.rs:119-157): take the
key's entry (creating an empty one if absent), GC stale sessions in
place, reject with the current/max counts when the limit is reached,
otherwise push the new session and answer with the magic token.  The
telemetry block (src/src/handlers.rs:146-155) only calls external
stats collaborators and is omitted: it never changes the response, the
sessions, or the license rows. -/
def admitEntry (st : Sessions) (key : String) (now lifetime : Int) :
    List Session :=
  liveFilter ((getSessions st key).getD []) now lifetime

def heartbeatAdmit (db : Db) (cfg : Config) (st : Sessions)
    (key sid hwid : String) (now : Int) (magic : Int)
    (license : LicenseModel) : HbOut :=
  if license.max_sessions ≤
      (admitEntry st key now cfg.session_lifetime).length then
    { res := .limitReached (admitEntry st key now cfg.session_lifetime).length
        license.max_sessions,
      sessions := setSessions st key
        (admitEntry st key now cfg.session_lifetime),
      db := db }
  else
    { res := .ok magic,
      sessions := setSessions st key
        (admitEntry st key now cfg.session_lifetime ++
          [{ session_id := sid, hwid_hash := some hwid, last_seen := now }]),
      db := db }

/-- The heartbeat slow path (src/src/handlers.rs:81-157): validate the
license (dropping the key's sessions on `NotFound`/`Invalid`, answering
500 on storage failure), run the hardware-lock check (first-use binding
when no fingerprint is stored, rejection on mismatch), then admit the
session. -/
def heartbeatSlow (db : Db) (cfg : Config) (st : Sessions)
    (key sid hwid : String) (now : Int) (magic : Int) : HbOut :=
  match dbValidate db key now with
  | .error .LicenseNotFound =>
    { res := .invalidKey, sessions := drop_sessions st key, db := db }
  | .error .LicenseInvalid =>
    { res := .expiredOrBlocked, sessions := drop_sessions st key, db := db }
  | .error _ =>
    { res := .internal, sessions := st, db := db }
  | .ok license =>
    match license.hwid_hash with
    | some bound =>
      if bound == hwid then
        heartbeatAdmit db cfg st key sid hwid now magic license
      else
        { res := .hwidMismatch, sessions := st, db := db }
    | none =>
      heartbeatAdmit (bind_hwid db key hwid) cfg st key sid hwid now magic
        license

/-- The heartbeat handler (src/src/handlers.rs:66-158): fast path when a
session with this `session_id` is already live under the key — refresh
its `last_seen` and answer immediately, without any database access —
otherwise the slow path. -/
def heartbeat (db : Db) (secret : String) (cfg : Config) (st : Sessions)
    (key machine_id sid : String) (now : Int) : HbOut :=
  let magic := generate_magic sid secret
  if sessionLive st key sid then
    { res := .ok magic, sessions := touchSessions st key sid now, db := db }
  else
    heartbeatSlow db cfg st key sid machine_id now magic

theorem getSessions_cons_eq (p : String × List Session) (rest : Sessions)
    (k : String) (h : (p.1 == k) = true) :
    getSessions (p :: rest) k = some p.2 := by
  unfold getSessions
  rw [show List.find? (fun q => q.1 == k) (p :: rest) = some p from
    List.find?_cons_of_pos rest h]
  rfl

theorem getSessions_cons_ne (p : String × List Session) (rest : Sessions)
    (k : String) (h : ¬(p.1 == k) = true) :
    getSessions (p :: rest) k = getSessions rest k := by
  unfold getSessions
  rw [show List.find? (fun q => q.1 == k) (p :: rest) =
      List.find? (fun q => q.1 == k) rest from
    List.find?_cons_of_neg rest h]

theorem getSessions_setSessions_self (st : Sessions) (k : String)
    (v : List Session) : getSessions (setSessions st k v) k = some v := by
  induction st with
  | nil => simp [setSessions, getSessions]
  | cons p rest ih =>
    unfold setSessions
    by_cases hp : (p.1 == k) = true
    · rw [if_pos hp, getSessions_cons_eq _ _ _ (by simp)]
    · rw [if_neg hp, getSessions_cons_ne _ _ _ hp]
      exact ih

theorem getSessions_setSessions_ne (st : Sessions) (k k' : String)
    (v : List Session) (h : k' ≠ k) :
    getSessions (setSessions st k v) k' = getSessions st k' := by
  induction st with
  | nil =>
    simp only [setSessions]
    rw [getSessions_cons_ne _ _ _ (by simpa using Ne.symm h)]
  | cons p rest ih =>
    unfold setSessions
    by_cases hp : (p.1 == k) = true
    · have hpk : p.1 = k := by simpa using hp
      rw [if_pos hp,
        getSessions_cons_ne _ _ _ (by simpa using Ne.symm h),
        getSessions_cons_ne p rest k' (by simpa [hpk] using Ne.symm h)]
    · rw [if_neg hp]
      by_cases hq : (p.1 == k') = true
      · rw [getSessions_cons_eq _ _ _ hq, getSessions_cons_eq _ _ _ hq]
      · rw [getSessions_cons_ne _ _ _ hq, getSessions_cons_ne _ _ _ hq]
        exact ih

theorem getSessions_drop_self (st : Sessions) (k : String) :
    getSessions (drop_sessions st k) k = none := by
  induction st with
  | nil => rfl
  | cons p rest ih =>
    rw [drop_sessions, List.filter_cons]
    by_cases hp : (p.1 != k) = true
    · rw [if_pos hp, getSessions_cons_ne _ _ _ (by simpa using hp)]
      exact ih
    · rw [if_neg hp]
      exact ih

theorem getSessions_drop_ne (st : Sessions) (k k' : String) (h : k' ≠ k) :
    getSessions (drop_sessions st k) k' = getSessions st k' := by
  induction st with
  | nil => rfl
  | cons p rest ih =>
    rw [drop_sessions, List.filter_cons]
    by_cases hp : (p.1 != k) = true
    · by_cases hq : (p.1 == k') = true
      · rw [if_pos hp, getSessions_cons_eq _ _ _ hq,
          getSessions_cons_eq _ _ _ hq]
      · rw [if_pos hp, getSessions_cons_ne _ _ _ hq,
          getSessions_cons_ne _ _ _ hq]
        exact ih
    · have hpk : p.1 = k := by simpa using hp
      rw [if_neg hp, getSessions_cons_ne p rest k'
        (by simpa [hpk] using Ne.symm h)]
      exact ih

theorem touchFirst_length (sl : List Session) (sid : String) (now : Int) :
    (touchFirst sl sid now).length = sl.length := by
  induction sl with
  | nil => rfl
  | cons s rest ih =>
    unfold touchFirst
    by_cases hs : (s.session_id == sid) = true <;> simp [hs, ih]

theorem touchFirst_fields (sl : List Session) (sid : String) (now : Int) :
    (touchFirst sl sid now).map (fun s => (s.session_id, s.hwid_hash)) =
      sl.map (fun s => (s.session_id, s.hwid_hash)) := by
  induction sl with
  | nil => rfl
  | cons s rest ih =>
    unfold touchFirst
    by_cases hs : (s.session_id == sid) = true <;> simp [hs, ih]

theorem touchFirst_getElem_ne (sl : List Session) (sid : String)
    (now : Int) (i : Nat) (s : Session) (hi : sl.get? i = some s)
    (hs : s.session_id ≠ sid) :
    (touchFirst sl sid now).get? i = some s := by
  induction sl generalizing i with
  | nil => cases i <;> cases hi
  | cons a rest ih =>
    unfold touchFirst
    by_cases ha : (a.session_id == sid) = true
    · cases i with
      | zero =>
        injection hi with hi
        subst hi
        exact absurd (by simpa using ha) hs
      | succ j => simpa [ha] using hi
    · cases i with
      | zero => simpa [ha] using hi
      | succ j =>
        simp only [ha, if_neg]
        simpa using ih j (by simpa using hi)

theorem touchFirst_touched (sl : List Session) (sid : String) (now : Int)
    (h : sl.any (fun s => s.session_id == sid) = true) :
    ∃ s ∈ touchFirst sl sid now, s.session_id = sid ∧ s.last_seen = now := by
  induction sl with
  | nil => cases h
  | cons a rest ih =>
    unfold touchFirst
    by_cases ha : (a.session_id == sid) = true
    · refine ⟨{ a with last_seen := now }, by simp [ha], by simpa using ha,
        rfl⟩
    · have h' : rest.any (fun s => s.session_id == sid) = true := by
        simpa [ha] using h
      obtain ⟨s, hmem, hsid, hseen⟩ := ih h'
      exact ⟨s, by simp [ha, hmem], hsid, hseen⟩

theorem getSessions_gc (st : Sessions) (k : String) (now timeout : Int)
    (sl : List Session) (hget : getSessions st k = some sl)
    (hne : liveFilter sl now timeout ≠ []) :
    getSessions (gc_sessions st now timeout) k =
      some (liveFilter sl now timeout) := by
  induction st with
  | nil => cases hget
  | cons p rest ih =>
    rw [gc_sessions, List.map_cons, List.filter_cons]
    by_cases hp : (p.1 == k) = true
    · have hsl : p.2 = sl := by
        rw [getSessions_cons_eq p rest k hp] at hget
        injection hget

      have hemp : (liveFilter p.2 now timeout).isEmpty = false := by
        rw [hsl]
        cases hc : liveFilter sl now timeout with
        | nil => exact absurd hc hne
        | cons a l => rfl
      rw [if_pos (by simp [hemp]),
        getSessions_cons_eq (p.1, liveFilter p.2 now timeout) _ k hp, hsl]
    · have hget' : getSessions rest k = some sl := by
        rwa [getSessions_cons_ne p rest k hp] at hget
      by_cases hq : (!(liveFilter p.2 now timeout).isEmpty) = true
      · rw [if_pos hq,
          getSessions_cons_ne (p.1, liveFilter p.2 now timeout) _ k hp]
        exact ih hget'
      · rw [if_neg hq]
        exact ih hget'

/-- A fixed license row used for concrete evaluations. -/
def lic0 : LicenseModel :=
  { key := "k0", tg_user_id := 7, is_blocked := false, expires_at := 100,
    created_at := 0, hwid_hash := none, max_sessions := 1 }

/-- A license row bound to hardware fingerprint `m1`, used for concrete
evaluations. -/
def lic1 : LicenseModel :=
  { key := "k", tg_user_id := 7, is_blocked := false, expires_at := 1000,
    created_at := 0, hwid_hash := some "m1", max_sessions := 1 }

/-- A live session with id `a` on machine `m1`, used for concrete
evaluations. -/
def sessA1 : Session :=
  { session_id := "a", hwid_hash := some "m1", last_seen := 0 }

/-- A registry holding only `sessA1` under key `k`. -/
def stA1 : Sessions := [("k", [sessA1])]

/-- The default 120-second session idle timeout
(src/src/state.rs:54). -/
def cfg0 : Config := { session_lifetime := 120 }

/-- An unbound one-seat license on key `k`, used for concrete
evaluations. -/
def lic2 : LicenseModel :=
  { key := "k", tg_user_id := 7, is_blocked := false, expires_at := 1000,
    created_at := 0, hwid_hash := none, max_sessions := 1 }

/-- A session that is still live at time 11 under the 120-second
timeout. -/
def sessB : Session :=
  { session_id := "b", hwid_hash := some "m1", last_seen := 10 }

/-- A session that is already stale at time 11 under the 120-second
timeout. -/
def sessC : Session :=
  { session_id := "c", hwid_hash := some "m1", last_seen := -200 }

/-- A registry holding one live and one stale session under key `k`. -/
def stBC : Sessions := [("k", [sessB, sessC])]

/-- A stored download token (src/src/state.rs:31-35). -/
structure DownloadToken where
  version : String
  created_at : Int
deriving Repr, DecidableEq

/-- The `DashMap<String, DownloadToken>` registry (src/src/state.rs:37),
embedded as an association list. -/
abbrev DownloadTokens : Type := List (String × DownloadToken)

/-- `download_tokens.get(token)`: first entry for the token string. -/
def findToken (tokens : DownloadTokens) (token : String) :
    Option DownloadToken :=
  (tokens.find? (fun p => p.1 == token)).map (fun p => p.2)

/-- `AppState::create_download_token` (src/src/state.rs:234-242): insert
`{version, created_at := now}` under the token string (the fresh UUID is
passed in as `token`). -/
def create_download_token (tokens : DownloadTokens)
    (token version : String) (now : Int) : DownloadTokens :=
  match tokens with
  | [] => [(token, { version := version, created_at := now })]
  | p :: rest =>
    if p.1 == token then
      (token, { version := version, created_at := now }) :: rest
    else p :: create_download_token rest token version now

/-- `AppState::validate_download_token` (src/src/state.rs:244-254):
return the version iff the token exists and
`(now - created_at).num_seconds() < download_token_lifetime`; the record
is read, never removed. -/
def validate_download_token (tokens : DownloadTokens) (timeout : Int)
    (token : String) (now : Int) : Option String :=
  match findToken tokens token with
  | some dt =>
    if now - dt.created_at < timeout then some dt.version else none
  | none => none

/-- The result of one smart-backup tick: the fingerprint stored in
`backup_hash` afterwards, whether a snapshot was produced and handed to
the administrators, and whether the tick returned `Ok`. -/
structure BackupOut where
  backup_hash : Nat
  delivered : Bool
  ok : Bool
deriving Repr, DecidableEq

/-- `AppState::perform_smart_backup` (src/src/state.rs:146-198).  The
fingerprint function over the ordered license rows (`hash_licenses`,
state.rs:84-94, built on std's `DefaultHasher`) is taken as a parameter
`hashFn`; `snapshotOk` is whether the `VACUUM INTO` snapshot succeeds
(delivery errors to individual admins are ignored by the code).  The
new fingerprint is stored unconditionally (state.rs:156) BEFORE the
skip check and before the snapshot is attempted. -/
def perform_smart_backup (hashFn : List LicenseModel → Nat)
    (rows : List LicenseModel) (old_hash : Nat) (snapshotOk : Bool) :
    BackupOut :=
  if hashFn rows = old_hash ∨ old_hash = 0 then
    { backup_hash := hashFn rows, delivered := false, ok := true }
  else if snapshotOk then
    { backup_hash := hashFn rows, delivered := true, ok := true }
  else
    { backup_hash := hashFn rows, delivered := false, ok := false }

/-- A claimed-promo row (src/src/entities/claimed_promo.rs), primary key
`(tg_user_id, promo_name)`. -/
structure ClaimedPromo where
  tg_user_id : Int
  promo_name : String
  claimed_at : Int
deriving Repr, DecidableEq

/-- The durable stores touched by `claim_promo`. -/
structure PromoDb where
  users : List Int
  licenses : List LicenseModel
  promos : List ClaimedPromo
deriving Repr, DecidableEq

/-- `ClaimedPromo::find_by_id((tg_user_id, promo_name))`. -/
def findPromo (promos : List ClaimedPromo) (uid : Int) (name : String) :
    Option ClaimedPromo :=
  promos.find? (fun p => p.tg_user_id == uid && p.promo_name == name)

/-- Start of the promo window, 2025-12-14 18:00:00 UTC in epoch seconds
(src/src/services/license.rs:142). -/
def promoStart : Int := 1765735200

/-- End of the promo window, 2025-12-21 23:59:59 UTC in epoch seconds
(src/src/services/license.rs:143). -/
def promoEnd : Int := 1766361599

/-- `LicenseService::is_promo_active` (src/src/services/license.rs:139-145):
`now >= start && now <= end`. -/
def is_promo_active (now : Int) : Bool :=
  decide (promoStart ≤ now) && decide (now ≤ promoEnd)

/-- `UserService::get_or_create`: ensure the user row exists. -/
def get_or_create (users : List Int) (uid : Int) : List Int :=
  if users.contains uid then users else users ++ [uid]

/-- Which of the two inserts of `claim_promo` hits a storage failure;
`fine` is the failure-free run. -/
inductive DbFault where
  | fine
  | licenseInsertFails
  | promoInsertFails
deriving Repr, DecidableEq

/-- `LicenseService::create` (src/src/services/license.rs:21-47): ensure
the user exists, then insert a fresh row with `expires_at = now + days`
days, `blocked = false`, no hardware binding, `max_sessions = 5`.  The
fresh UUID key is passed in as `newKey`; a `licenseInsertFails` fault
makes the insert fail after the user provisioning. -/
def trialLicense (uid : Int) (newKey : String) (days : Nat) (now : Int) :
    LicenseModel :=
  { key := newKey, tg_user_id := uid, is_blocked := false,
    expires_at := now + 86400 * (days : Int), created_at := now,
    hwid_hash := none, max_sessions := 5 }

def createLicense (db : PromoDb) (uid : Int) (newKey : String)
    (days : Nat) (now : Int) (fault : DbFault) :
    PromoDb × Except Error LicenseModel :=
  if fault = .licenseInsertFails then
    ({ db with users := get_or_create db.users uid }, .error .Storage)
  else
    ({ db with
       users := get_or_create db.users uid,
       licenses := db.licenses ++ [trialLicense uid newKey days now] },
      .ok (trialLicense uid newKey days now))

/-- The claim record inserted by `claim_promo`
(src/src/services/license.rs:173-179). -/
def mkClaim (uid : Int) (name : String) (now : Int) : ClaimedPromo :=
  { tg_user_id := uid, promo_name := name, claimed_at := now }

/-- `LicenseService::claim_promo` (src/src/services/license.rs:148-182,
identical in structure to src/src/sv/license.rs:138-171): reject outside
the window, ensure the user, reject when a claim record exists, create a
7-day trial license, then insert the claim record — two separate inserts
with no transaction, so a `promoInsertFails` fault happens after the
license insert already committed. -/
def claim_promo (db : PromoDb) (uid : Int) (name newKey : String)
    (now : Int) (fault : DbFault) : PromoDb × Except Error LicenseModel :=
  if is_promo_active now = false then (db, .error .PromoInactive)
  else
    match findPromo db.promos uid name with
    | some _ =>
      ({ db with users := get_or_create db.users uid },
        .error .PromoClaimed)
    | none =>
      match createLicense { db with users := get_or_create db.users uid }
          uid newKey 7 now fault with
      | (db2, .error e) => (db2, .error e)
      | (db2, .ok lic) =>
        if fault = .promoInsertFails then (db2, .error .Storage)
        else
          ({ db2 with promos := db2.promos ++ [mkClaim uid name now] },
            .ok lic)

/-- An empty durable store for concrete `claim_promo` evaluations. -/
def promoDb0 : PromoDb := { users := [], licenses := [], promos := [] }

theorem validate_of_none (rows : List LicenseModel) (k : String) (now : Int)
    (hf : findLicense rows k = none) :
    validate rows k now = .error .LicenseNotFound := by
  unfold validate
  rw [hf]

theorem validate_of_found (rows : List LicenseModel) (k : String) (now : Int)
    (l0 : LicenseModel) (hf : findLicense rows k = some l0) :
    validate rows k now =
      if l0.is_blocked || decide (l0.expires_at < now) then
        .error .LicenseInvalid
      else .ok l0 := by
  unfold validate
  rw [hf]

theorem findLicense_map_keep (rows : List LicenseModel) (k : String)
    (f : LicenseModel → LicenseModel) (hf : ∀ l, (f l).key = l.key) :
    findLicense (rows.map f) k = (findLicense rows k).map f := by
  induction rows with
  | nil => rfl
  | cons a rest ih =>
    simp only [findLicense, List.map_cons, List.find?_cons] at *
    rw [hf a]
    cases h : (a.key == k) <;> simp [h, ih]

/-- C1 (amended): `validate(k)` returns the stored record iff it exists,
is not blocked, and `expires_at ≥ now` — the boundary `expires_at = now`
is accepted, not treated as expired — and fails with `LicenseNotFound`
exactly when no record for `k` exists. -/
theorem validate_characterization (rows : List LicenseModel) (k : String)
    (now : Int) :
    (∀ l, validate rows k now = .ok l ↔
        (findLicense rows k = some l ∧ l.is_blocked = false ∧
          now ≤ l.expires_at)) ∧
    (validate rows k now = .error .LicenseNotFound ↔
        findLicense rows k = none) := by
  cases hf : findLicense rows k with
  | none =>
    rw [validate_of_none rows k now hf]
    constructor
    · intro l
      constructor
      · intro h; cases h
      · intro hl
        exact absurd hl.1 (by simp)
    · simp
  | some l0 =>
    rw [validate_of_found rows k now l0 hf]
    cases hb : l0.is_blocked with
    | true =>
      refine ⟨fun l => ⟨fun h => ?_, fun hl => ?_⟩, ⟨fun h => ?_, fun h => ?_⟩⟩
      · simp at h
      · obtain ⟨hl, hbl, -⟩ := hl
        injection hl with hl; subst hl
        rw [hbl] at hb; cases hb
      · simp at h
      · cases h
    | false =>
      by_cases he : l0.expires_at < now
      · refine ⟨fun l => ⟨fun h => ?_, fun hl => ?_⟩, ⟨fun h => ?_, fun h => ?_⟩⟩
        · simp [he] at h
        · obtain ⟨hl, -, hle⟩ := hl
          injection hl with hl; subst hl
          omega
        · simp [he] at h
        · cases h
      · refine ⟨fun l => ⟨fun h => ?_, fun hl => ?_⟩, ⟨fun h => ?_, fun h => ?_⟩⟩
        · simp [he] at h
          subst h
          exact ⟨rfl, hb, by omega⟩
        · obtain ⟨hl, -, -⟩ := hl
          injection hl with hl; subst hl
          simp [he]
        · simp [he] at h
        · cases h

/-- Witness for C1's amended theorem at a concrete store. -/
theorem validate_characterization_witness :
    validate [lic0] "k0" 100 = .ok lic0 :=
  ((validate_characterization [lic0] "k0" 100).1 lic0).mpr
    ⟨by decide, by decide, by decide⟩

/-- C1 counterexample: a record with `expires_at = now = 100` and
`blocked = false` is accepted by `validate`, refuting the claim that the
boundary `expires_at == now` is treated as already expired (`Invalid`). -/
theorem validate_boundary_counterexample :
    findLicense [lic0] "k0" = some lic0 ∧ lic0.expires_at = 100 ∧
      lic0.is_blocked = false ∧ validate [lic0] "k0" 100 = .ok lic0 :=
  ⟨by decide, by decide, by decide, rfl⟩

theorem extendExp_eq (e : Int) (days : Nat) (now : Int) :
    extendExp e days now = max now e + 86400 * (days : Int) := by
  unfold extendExp
  split <;> omega

/-- C6: on a present key, `extend(k, d)` succeeds, the returned expiry is
`max(now, old_expiry) + d` days, hence at least `max(now, old_expiry)`,
and the stored row now carries that expiry with `blocked` reset to
`false` and every other field intact. -/
theorem extend_monotonic (rows : List LicenseModel) (k : String)
    (days : Nat) (now : Int) (l : LicenseModel)
    (h : findLicense rows k = some l) :
    extend rows k days now =
      .ok (applyExtend (max now l.expires_at + 86400 * (days : Int)) k rows,
          max now l.expires_at + 86400 * (days : Int)) ∧
    max now l.expires_at ≤ max now l.expires_at + 86400 * (days : Int) ∧
    findLicense
        (applyExtend (max now l.expires_at + 86400 * (days : Int)) k rows) k =
      some { l with
              expires_at := max now l.expires_at + 86400 * (days : Int),
              is_blocked := false } := by
  have hkey :=
    List.find?_some (show List.find? (fun x => x.key == k) rows = some l from h)
  simp only at hkey
  refine ⟨?_, by omega, ?_⟩
  · simp only [extend, h, extendExp_eq]
  · have hkeq : l.key = k := by simpa using hkey
    unfold applyExtend
    rw [findLicense_map_keep]
    · rw [h]
      simp [hkeq]
    · intro l'
      by_cases hc : (l'.key == k) = true <;> simp [hc]

/-- Witness for C6 at a concrete store: extending `lic0` (expiring at
100) by one day at time 200 yields expiry `200 + 86400`. -/
theorem extend_monotonic_witness :
    extend [lic0] "k0" 1 200 =
      .ok (applyExtend (max 200 lic0.expires_at + 86400 * (1 : Int)) "k0"
            [lic0],
          max 200 lic0.expires_at + 86400 * (1 : Int)) ∧
    max 200 lic0.expires_at ≤ max 200 lic0.expires_at + 86400 * (1 : Int) ∧
    findLicense
        (applyExtend (max 200 lic0.expires_at + 86400 * (1 : Int)) "k0"
          [lic0]) "k0" =
      some { lic0 with
              expires_at := max 200 lic0.expires_at + 86400 * (1 : Int),
              is_blocked := false } :=
  extend_monotonic [lic0] "k0" 1 200 lic0 (by decide)

theorem heartbeat_fast (db : Db) (secret : String) (cfg : Config)
    (st : Sessions) (key mid sid : String) (now : Int)
    (h : sessionLive st key sid = true) :
    heartbeat db secret cfg st key mid sid now =
      { res := .ok (generate_magic sid secret),
        sessions := touchSessions st key sid now, db := db } := by
  unfold heartbeat
  rw [if_pos h]

theorem heartbeat_slow (db : Db) (secret : String) (cfg : Config)
    (st : Sessions) (key mid sid : String) (now : Int)
    (h : sessionLive st key sid = false) :
    heartbeat db secret cfg st key mid sid now =
      heartbeatSlow db cfg st key sid mid now (generate_magic sid secret) := by
  unfold heartbeat
  rw [if_neg (by simp [h])]

theorem heartbeatSlow_notFound (db : Db) (cfg : Config) (st : Sessions)
    (key sid hwid : String) (now magic : Int)
    (hv : dbValidate db key now = .error .LicenseNotFound) :
    heartbeatSlow db cfg st key sid hwid now magic =
      { res := .invalidKey, sessions := drop_sessions st key, db := db } := by
  unfold heartbeatSlow
  rw [hv]

theorem heartbeatSlow_invalid (db : Db) (cfg : Config) (st : Sessions)
    (key sid hwid : String) (now magic : Int)
    (hv : dbValidate db key now = .error .LicenseInvalid) :
    heartbeatSlow db cfg st key sid hwid now magic =
      { res := .expiredOrBlocked, sessions := drop_sessions st key,
        db := db } := by
  unfold heartbeatSlow
  rw [hv]

theorem heartbeatSlow_storage (db : Db) (cfg : Config) (st : Sessions)
    (key sid hwid : String) (now magic : Int)
    (hv : dbValidate db key now = .error .Storage) :
    heartbeatSlow db cfg st key sid hwid now magic =
      { res := .internal, sessions := st, db := db } := by
  unfold heartbeatSlow
  rw [hv]

theorem heartbeatSlow_mismatch (db : Db) (cfg : Config) (st : Sessions)
    (key sid hwid : String) (now magic : Int) (license : LicenseModel)
    (bound : String) (hv : dbValidate db key now = .ok license)
    (hb : license.hwid_hash = some bound) (hne : (bound == hwid) = false) :
    heartbeatSlow db cfg st key sid hwid now magic =
      { res := .hwidMismatch, sessions := st, db := db } := by
  unfold heartbeatSlow
  rw [hv]
  simp [hb, hne]

theorem heartbeatSlow_bound_ok (db : Db) (cfg : Config) (st : Sessions)
    (key sid hwid : String) (now magic : Int) (license : LicenseModel)
    (bound : String) (hv : dbValidate db key now = .ok license)
    (hb : license.hwid_hash = some bound) (heq : (bound == hwid) = true) :
    heartbeatSlow db cfg st key sid hwid now magic =
      heartbeatAdmit db cfg st key sid hwid now magic license := by
  unfold heartbeatSlow
  rw [hv]
  simp [hb, heq]

theorem heartbeatSlow_bind (db : Db) (cfg : Config) (st : Sessions)
    (key sid hwid : String) (now magic : Int) (license : LicenseModel)
    (hv : dbValidate db key now = .ok license)
    (hb : license.hwid_hash = none) :
    heartbeatSlow db cfg st key sid hwid now magic =
      heartbeatAdmit (bind_hwid db key hwid) cfg st key sid hwid now magic
        license := by
  unfold heartbeatSlow
  rw [hv]
  simp [hb]

theorem heartbeatAdmit_db (db : Db) (cfg : Config) (st : Sessions)
    (key sid hwid : String) (now magic : Int) (license : LicenseModel) :
    (heartbeatAdmit db cfg st key sid hwid now magic license).db = db := by
  unfold heartbeatAdmit
  split <;> rfl

/-- C7: when the heartbeat fast path misses and license validation
fails, the handler drops every session stored under the key and answers
401 for a missing key, 403 for an expired/blocked key, and 500 (without
touching the sessions) for a storage failure. -/
theorem heartbeat_slowpath_errors (db : Db) (secret : String) (cfg : Config)
    (st : Sessions) (key mid sid : String) (now : Int)
    (hfast : sessionLive st key sid = false) :
    (dbValidate db key now = .error .LicenseNotFound →
      heartbeat db secret cfg st key mid sid now =
        { res := .invalidKey, sessions := drop_sessions st key, db := db } ∧
      statusCode .invalidKey = 401 ∧
      getSessions (drop_sessions st key) key = none) ∧
    (dbValidate db key now = .error .LicenseInvalid →
      heartbeat db secret cfg st key mid sid now =
        { res := .expiredOrBlocked, sessions := drop_sessions st key,
          db := db } ∧
      statusCode .expiredOrBlocked = 403 ∧
      getSessions (drop_sessions st key) key = none) ∧
    (dbValidate db key now = .error .Storage →
      heartbeat db secret cfg st key mid sid now =
        { res := .internal, sessions := st, db := db } ∧
      statusCode .internal = 500) := by
  rw [heartbeat_slow db secret cfg st key mid sid now hfast]
  refine ⟨fun hv => ?_, fun hv => ?_, fun hv => ?_⟩
  · exact ⟨heartbeatSlow_notFound db cfg st key sid mid now _ hv, rfl,
      getSessions_drop_self st key⟩
  · exact ⟨heartbeatSlow_invalid db cfg st key sid mid now _ hv, rfl,
      getSessions_drop_self st key⟩
  · exact ⟨heartbeatSlow_storage db cfg st key sid mid now _ hv, rfl⟩

/-- Witness for C7: an empty store makes validation fail with
`LicenseNotFound`, so the heartbeat answers 401 and empties the key. -/
theorem heartbeat_slowpath_errors_witness :
    heartbeat (some []) "s" { session_lifetime := 120 }
        [("k", [{ session_id := "b", hwid_hash := none, last_seen := 0 }])]
        "k" "m" "a" 1 =
      { res := .invalidKey,
        sessions := drop_sessions
          [("k", [{ session_id := "b", hwid_hash := none, last_seen := 0 }])]
          "k",
        db := some [] } :=
  ((heartbeat_slowpath_errors (some []) "s" { session_lifetime := 120 }
      [("k", [{ session_id := "b", hwid_hash := none, last_seen := 0 }])]
      "k" "m" "a" 1 (by decide)).1 rfl).1

/-- C9: a fast-path heartbeat (live session with this id under the key)
answers 200/magic and only refreshes that session's `last_seen`: the
key's session count is unchanged, every session's `session_id` and
`hwid_hash` are unchanged, sessions with a different id are untouched
entirely, and no other key's sessions change. -/
theorem heartbeat_fastpath_frame (db : Db) (secret : String) (cfg : Config)
    (st : Sessions) (key mid sid : String) (now : Int) (sl : List Session)
    (hget : getSessions st key = some sl)
    (hany : sl.any (fun s => s.session_id == sid) = true) :
    (heartbeat db secret cfg st key mid sid now).res =
        .ok (generate_magic sid secret) ∧
    getSessions (heartbeat db secret cfg st key mid sid now).sessions key =
        some (touchFirst sl sid now) ∧
    (touchFirst sl sid now).length = sl.length ∧
    (touchFirst sl sid now).map (fun s => (s.session_id, s.hwid_hash)) =
        sl.map (fun s => (s.session_id, s.hwid_hash)) ∧
    (∀ i s, sl.get? i = some s → s.session_id ≠ sid →
        (touchFirst sl sid now).get? i = some s) ∧
    (∀ k, k ≠ key →
        getSessions (heartbeat db secret cfg st key mid sid now).sessions k =
          getSessions st k) := by
  have hlive : sessionLive st key sid = true := by
    unfold sessionLive
    rw [hget]
    exact hany
  rw [heartbeat_fast db secret cfg st key mid sid now hlive]
  have htouch : touchSessions st key sid now =
      setSessions st key (touchFirst sl sid now) := by
    unfold touchSessions
    rw [hget]
  refine ⟨rfl, ?_, touchFirst_length sl sid now, touchFirst_fields sl sid now,
    fun i s hi hs => touchFirst_getElem_ne sl sid now i s hi hs, fun k hk => ?_⟩
  · show getSessions (touchSessions st key sid now) key = _
    rw [htouch]
    exact getSessions_setSessions_self st key (touchFirst sl sid now)
  · show getSessions (touchSessions st key sid now) k = getSessions st k
    rw [htouch]
    exact getSessions_setSessions_ne st key k (touchFirst sl sid now) hk

/-- Witness for C9 at a concrete registry holding one live session. -/
theorem heartbeat_fastpath_frame_witness :
    (heartbeat (some []) "s" { session_lifetime := 120 }
        [("k", [{ session_id := "a", hwid_hash := some "m", last_seen := 0 }])]
        "k" "m" "a" 5).res = .ok (generate_magic "a" "s") ∧
    getSessions (heartbeat (some []) "s" { session_lifetime := 120 }
        [("k", [{ session_id := "a", hwid_hash := some "m", last_seen := 0 }])]
        "k" "m" "a" 5).sessions "k" =
      some (touchFirst
        [{ session_id := "a", hwid_hash := some "m", last_seen := 0 }] "a"
        5) := by
  have h := heartbeat_fastpath_frame (some []) "s" { session_lifetime := 120 }
    [("k", [{ session_id := "a", hwid_hash := some "m", last_seen := 0 }])]
    "k" "m" "a" 5
    [{ session_id := "a", hwid_hash := some "m", last_seen := 0 }]
    (by decide) (by decide)
  exact ⟨h.1, h.2.1⟩

/-- C10: when a session with this id is live under the key, the
heartbeat answers 200/magic for ANY state of the license store (blocked,
expired, deleted, or even unreachable), leaves the license store
untouched, and refreshing resets the idle clock: after a GC at any time
`t` still within the idle timeout of this refresh, a further heartbeat
(again with an arbitrary license store) still answers 200/magic. -/
theorem heartbeat_fastpath_no_validate (db db2 : Db) (secret : String)
    (cfg : Config) (st : Sessions) (key mid mid2 sid : String) (now t : Int)
    (hlive : sessionLive st key sid = true)
    (ht : t - now < cfg.session_lifetime) :
    (heartbeat db secret cfg st key mid sid now).res =
        .ok (generate_magic sid secret) ∧
    (heartbeat db secret cfg st key mid sid now).db = db ∧
    (heartbeat db2 secret cfg
        (gc_sessions (heartbeat db secret cfg st key mid sid now).sessions t
          cfg.session_lifetime)
        key mid2 sid t).res = .ok (generate_magic sid secret) := by
  obtain ⟨sl, hget, hany⟩ : ∃ sl, getSessions st key = some sl ∧
      sl.any (fun s => s.session_id == sid) = true := by
    unfold sessionLive at hlive
    cases hg : getSessions st key with
    | none => rw [hg] at hlive; cases hlive
    | some sl => rw [hg] at hlive; exact ⟨sl, rfl, hlive⟩
  rw [heartbeat_fast db secret cfg st key mid sid now hlive]
  have htouch : touchSessions st key sid now =
      setSessions st key (touchFirst sl sid now) := by
    unfold touchSessions
    rw [hget]
  obtain ⟨s, hmem, hsid, hseen⟩ := touchFirst_touched sl sid now hany
  have hsafe : s ∈ liveFilter (touchFirst sl sid now) t
      cfg.session_lifetime := by
    unfold liveFilter
    refine List.mem_filter.mpr ⟨hmem, ?_⟩
    rw [hseen]
    simpa using ht
  have hget2 : getSessions (gc_sessions (touchSessions st key sid now) t
      cfg.session_lifetime) key =
      some (liveFilter (touchFirst sl sid now) t cfg.session_lifetime) := by
    rw [htouch]
    exact getSessions_gc _ key t cfg.session_lifetime (touchFirst sl sid now)
      (getSessions_setSessions_self st key (touchFirst sl sid now))
      (List.ne_nil_of_mem hsafe)
  have hlive2 : sessionLive (gc_sessions (touchSessions st key sid now) t
      cfg.session_lifetime) key sid = true := by
    unfold sessionLive
    rw [hget2]
    exact List.any_eq_true.mpr ⟨s, hsafe, by simp [hsid]⟩
  refine ⟨rfl, rfl, ?_⟩
  rw [heartbeat_fast db2 secret cfg _ key mid2 sid t hlive2]

/-- Witness for C10: a live session heartbeats successfully against an
unreachable license store, and again after a GC 100 seconds later. -/
theorem heartbeat_fastpath_no_validate_witness :
    (heartbeat none "s" { session_lifetime := 120 }
        [("k", [{ session_id := "a", hwid_hash := some "m", last_seen := 0 }])]
        "k" "m" "a" 5).res = .ok (generate_magic "a" "s") ∧
    (heartbeat none "s" { session_lifetime := 120 }
        [("k", [{ session_id := "a", hwid_hash := some "m", last_seen := 0 }])]
        "k" "m" "a" 5).db = none ∧
    (heartbeat (some []) "s" { session_lifetime := 120 }
        (gc_sessions (heartbeat none "s" { session_lifetime := 120 }
          [("k",
            [{ session_id := "a", hwid_hash := some "m", last_seen := 0 }])]
          "k" "m" "a" 5).sessions 105 120)
        "k" "m2" "a" 105).res = .ok (generate_magic "a" "s") :=
  heartbeat_fastpath_no_validate none (some []) "s"
    { session_lifetime := 120 }
    [("k", [{ session_id := "a", hwid_hash := some "m", last_seen := 0 }])]
    "k" "m" "m2" "a" 5 105 (by decide) (by decide)

theorem heartbeatSlow_db (db : Db) (cfg : Config) (st : Sessions)
    (key sid hwid : String) (now magic : Int) :
    (heartbeatSlow db cfg st key sid hwid now magic).db = db ∨
    (∃ license, dbValidate db key now = .ok license ∧
      license.hwid_hash = none ∧
      (heartbeatSlow db cfg st key sid hwid now magic).db =
        bind_hwid db key hwid) := by
  cases hv : dbValidate db key now with
  | error e =>
    cases e
    · rw [heartbeatSlow_notFound db cfg st key sid hwid now magic hv]
      exact Or.inl rfl
    · rw [heartbeatSlow_invalid db cfg st key sid hwid now magic hv]
      exact Or.inl rfl
    · unfold heartbeatSlow
      rw [hv]
      exact Or.inl rfl
    · unfold heartbeatSlow
      rw [hv]
      exact Or.inl rfl
    · rw [heartbeatSlow_storage db cfg st key sid hwid now magic hv]
      exact Or.inl rfl
  | ok license =>
    cases hb : license.hwid_hash with
    | some bound =>
      cases hbe : (bound == hwid) with
      | true =>
        rw [heartbeatSlow_bound_ok db cfg st key sid hwid now magic license
          bound hv hb hbe]
        exact Or.inl (heartbeatAdmit_db db cfg st key sid hwid now magic
          license)
      | false =>
        rw [heartbeatSlow_mismatch db cfg st key sid hwid now magic license
          bound hv hb hbe]
        exact Or.inl rfl
    | none =>
      rw [heartbeatSlow_bind db cfg st key sid hwid now magic license hv hb]
      exact Or.inr ⟨license, rfl, hb,
        heartbeatAdmit_db (bind_hwid db key hwid) cfg st key sid hwid now
          magic license⟩

/-- C2 (amended): the hardware lock holds on the slow path only.  When no
session with this id is live under the key and the stored fingerprint
differs from the client's `machine_id`, the heartbeat is rejected with
`hwidMismatch` and neither the sessions nor the license rows change; and
a heartbeat never alters an already-bound fingerprint: every row that is
found with `hwid_hash = some h` before the request is found unchanged
after it.  (The fast path, however, skips the check entirely — see the
counterexample.) -/
theorem heartbeat_hwid_lock (rows : List LicenseModel) (secret : String)
    (cfg : Config) (st : Sessions) (key mid sid : String) (now : Int) :
    (∀ license bound, sessionLive st key sid = false →
      validate rows key now = .ok license →
      license.hwid_hash = some bound → (bound == mid) = false →
      heartbeat (some rows) secret cfg st key mid sid now =
        { res := .hwidMismatch, sessions := st, db := some rows }) ∧
    (∀ k l rows', findLicense rows k = some l → l.hwid_hash ≠ none →
      (heartbeat (some rows) secret cfg st key mid sid now).db =
        some rows' →
      findLicense rows' k = some l) := by
  constructor
  · intro license bound hfast hval hb hne
    rw [heartbeat_slow (some rows) secret cfg st key mid sid now hfast]
    exact heartbeatSlow_mismatch (some rows) cfg st key sid mid now _ license
      bound hval hb hne
  · intro k l rows' hfind hhw hdb
    by_cases hlive : sessionLive st key sid = true
    · rw [heartbeat_fast (some rows) secret cfg st key mid sid now hlive]
        at hdb
      injection hdb with hdb
      subst hdb
      exact hfind
    · rw [heartbeat_slow (some rows) secret cfg st key mid sid now
        (by simpa using hlive)] at hdb
      rcases heartbeatSlow_db (some rows) cfg st key sid mid now
          (generate_magic sid secret) with hout | ⟨license, hv, hnone, hout⟩
      · rw [hout] at hdb
        injection hdb with hdb
        subst hdb
        exact hfind
      · rw [hout] at hdb
        have hdb2 : some (rows.map (fun l =>
            if l.key == key then { l with hwid_hash := some mid } else l)) =
            some rows' := hdb
        injection hdb2 with hdb2
        subst hdb2
        rw [findLicense_map_keep rows k
          (fun l => if l.key == key then { l with hwid_hash := some mid }
            else l)
          (fun l' => by by_cases hc : (l'.key == key) = true <;> simp [hc])]
        rw [hfind]
        show some (if (l.key == key) = true
          then { l with hwid_hash := some mid } else l) = some l
        have hlk :=
          List.find?_some
            (show List.find? (fun x => x.key == k) rows = some l from hfind)
        by_cases hkk : (l.key == key) = true
        · have hkeq : k = key := by
            have h1 : l.key = k := by simpa using hlk
            have h2 : l.key = key := by simpa using hkk
            rw [h1] at h2
            exact h2
          subst hkeq
          have hfl : findLicense rows k = some license :=
            (((validate_characterization rows k now).1 license).mp hv).1
          rw [hfind] at hfl
          injection hfl with hfl
          rw [hfl] at hhw
          exact absurd hnone hhw
        · rw [if_neg hkk]

/-- C2 counterexample: the license bound to fingerprint `m1` accepts a
heartbeat carrying `machine_id = m2` because a session with that id is
already live — the fast path runs no hardware check. -/
theorem heartbeat_hwid_gap_counterexample :
    (findLicense [lic1] "k").map (fun l => l.hwid_hash) =
      some (some "m1") ∧
    ("m2" : String) ≠ "m1" ∧
    sessionLive stA1 "k" "a" = true ∧
    (heartbeat (some [lic1]) "s" cfg0 stA1 "k" "m2" "a" 1).res =
      .ok (generate_magic "a" "s") :=
  ⟨rfl, by decide, by decide, rfl⟩

/-- Witness for C2's amended theorem: with no live session, the same
mismatched request is rejected and nothing changes. -/
theorem heartbeat_hwid_lock_witness :
    heartbeat (some [lic1]) "s" cfg0 [] "k" "m2" "a" 1 =
      { res := .hwidMismatch, sessions := [], db := some [lic1] } :=
  (heartbeat_hwid_lock [lic1] "s" cfg0 [] "k" "m2" "a" 1).1 lic1 "m1"
    (by decide) rfl rfl (by decide)

/-- C3 (amended): on the slow path (no live session with this id), with a
valid license whose hardware check passes, a request finding the key's
live-session count already at `max_sessions` is rejected with
`limitReached(current, max)` where `current` is that live count; it
inserts no session and leaves every live session in place verbatim (the
key's entry becomes exactly its GC-filtered list — sessions already idle
past the timeout are removed even on the rejected request) and no other
key changes.  Otherwise the new session is appended and the key's
session count stays at most `max_sessions`. -/
theorem heartbeat_session_limit (rows : List LicenseModel) (secret : String)
    (cfg : Config) (st : Sessions) (key mid sid : String) (now : Int)
    (license : LicenseModel)
    (hfast : sessionLive st key sid = false)
    (hval : validate rows key now = .ok license)
    (hhw : license.hwid_hash = none ∨ license.hwid_hash = some mid) :
    (license.max_sessions ≤
        (admitEntry st key now cfg.session_lifetime).length →
      (heartbeat (some rows) secret cfg st key mid sid now).res =
        .limitReached (admitEntry st key now cfg.session_lifetime).length
          license.max_sessions ∧
      getSessions
          (heartbeat (some rows) secret cfg st key mid sid now).sessions
          key = some (admitEntry st key now cfg.session_lifetime) ∧
      (∀ k, k ≠ key →
        getSessions
            (heartbeat (some rows) secret cfg st key mid sid now).sessions
            k = getSessions st k)) ∧
    ((admitEntry st key now cfg.session_lifetime).length <
        license.max_sessions →
      (heartbeat (some rows) secret cfg st key mid sid now).res =
        .ok (generate_magic sid secret) ∧
      getSessions
          (heartbeat (some rows) secret cfg st key mid sid now).sessions
          key =
        some (admitEntry st key now cfg.session_lifetime ++
          [{ session_id := sid, hwid_hash := some mid, last_seen := now }]) ∧
      (admitEntry st key now cfg.session_lifetime ++
        [({ session_id := sid, hwid_hash := some mid,
            last_seen := now } : Session)]).length ≤
        license.max_sessions ∧
      (∀ k, k ≠ key →
        getSessions
            (heartbeat (some rows) secret cfg st key mid sid now).sessions
            k = getSessions st k)) := by
  obtain ⟨db', hadm⟩ : ∃ db',
      heartbeat (some rows) secret cfg st key mid sid now =
        heartbeatAdmit db' cfg st key sid mid now (generate_magic sid secret)
          license := by
    rcases hhw with hb | hb
    · refine ⟨bind_hwid (some rows) key mid, ?_⟩
      rw [heartbeat_slow (some rows) secret cfg st key mid sid now hfast]
      exact heartbeatSlow_bind (some rows) cfg st key sid mid now _ license
        hval hb
    · refine ⟨some rows, ?_⟩
      rw [heartbeat_slow (some rows) secret cfg st key mid sid now hfast]
      exact heartbeatSlow_bound_ok (some rows) cfg st key sid mid now _
        license mid hval hb (by simp)
  rw [hadm]
  constructor
  · intro hle
    unfold heartbeatAdmit
    rw [if_pos hle]
    exact ⟨rfl, getSessions_setSessions_self st key _,
      fun k hk => getSessions_setSessions_ne st key k _ hk⟩
  · intro hlt
    unfold heartbeatAdmit
    rw [if_neg (by omega)]
    refine ⟨rfl, getSessions_setSessions_self st key _, ?_,
      fun k hk => getSessions_setSessions_ne st key k _ hk⟩
    rw [List.length_append]
    simp only [List.length_cons, List.length_nil]
    omega

/-- Witness for C3's amended theorem: an empty registry admits the new
session and ends up with one session, within the one-seat limit. -/
theorem heartbeat_session_limit_witness :
    (heartbeat (some [lic2]) "s" cfg0 [] "k" "m1" "a" 1).res =
        .ok (generate_magic "a" "s") ∧
    getSessions (heartbeat (some [lic2]) "s" cfg0 [] "k" "m1" "a"
        1).sessions "k" =
      some (admitEntry [] "k" 1 cfg0.session_lifetime ++
        [{ session_id := "a", hwid_hash := some "m1", last_seen := 1 }]) ∧
    (admitEntry [] "k" 1 cfg0.session_lifetime ++
      [({ session_id := "a", hwid_hash := some "m1",
          last_seen := 1 } : Session)]).length ≤ lic2.max_sessions ∧
    (∀ k, k ≠ "k" →
      getSessions (heartbeat (some [lic2]) "s" cfg0 [] "k" "m1" "a"
          1).sessions k = getSessions [] k) :=
  (heartbeat_session_limit [lic2] "s" cfg0 [] "k" "m1" "a" 1 lic2
    (by decide) rfl (Or.inl rfl)).2 (by decide)

/-- C3 counterexample: a rejected (limit-reached) heartbeat still
mutates the session store — the stale session `c` is garbage-collected
inline before the limit check, so the key's list shrinks from
`[b, c]` to `[b]` even though the response is `limitReached 1 1`. -/
theorem heartbeat_limit_mutation_counterexample :
    sessionLive stBC "k" "a" = false ∧
    (heartbeat (some [lic2]) "s" cfg0 stBC "k" "m1" "a" 11).res =
      .limitReached 1 1 ∧
    getSessions stBC "k" = some [sessB, sessC] ∧
    getSessions (heartbeat (some [lic2]) "s" cfg0 stBC "k" "m1" "a"
        11).sessions "k" = some [sessB] :=
  ⟨by decide, rfl, rfl, rfl⟩

theorem findToken_cons_eq (p : String × DownloadToken)
    (rest : DownloadTokens) (token : String) (h : (p.1 == token) = true) :
    findToken (p :: rest) token = some p.2 := by
  unfold findToken
  rw [show List.find? (fun q => q.1 == token) (p :: rest) = some p from
    List.find?_cons_of_pos rest h]
  rfl

theorem findToken_cons_ne (p : String × DownloadToken)
    (rest : DownloadTokens) (token : String) (h : ¬(p.1 == token) = true) :
    findToken (p :: rest) token = findToken rest token := by
  unfold findToken
  rw [show List.find? (fun q => q.1 == token) (p :: rest) =
      List.find? (fun q => q.1 == token) rest from
    List.find?_cons_of_neg rest h]

theorem findToken_create (tokens : DownloadTokens)
    (token version : String) (t0 : Int) :
    findToken (create_download_token tokens token version t0) token =
      some { version := version, created_at := t0 } := by
  induction tokens with
  | nil =>
    exact findToken_cons_eq (token, { version := version, created_at := t0 })
      [] token (by simp)
  | cons p rest ih =>
    unfold create_download_token
    by_cases hp : (p.1 == token) = true
    · rw [if_pos hp]
      exact findToken_cons_eq _ _ token (by simp)
    · rw [if_neg hp, findToken_cons_ne p _ token hp]
      exact ih

/-- C8: a download token is redeemable — `validate_download_token`
returns its version, by construction without removing the record — iff
the token is stored and `now - issued_at < lifetime`; an absent token
gives the same `none` as an expired one.  Concretely, a token issued at
`t0` with the 600-second lifetime redeems at `t0 + 599` and fails at
`t0 + 600` and `t0 + 601`. -/
theorem download_token_window (tokens : DownloadTokens)
    (timeout now t0 : Int) (token version : String) :
    ((validate_download_token tokens timeout token now).isSome = true ↔
      ∃ dt, findToken tokens token = some dt ∧
        now - dt.created_at < timeout) ∧
    (∀ dt, findToken tokens token = some dt →
      now - dt.created_at < timeout →
      validate_download_token tokens timeout token now =
        some dt.version) ∧
    (findToken tokens token = none →
      validate_download_token tokens timeout token now = none) ∧
    validate_download_token (create_download_token tokens token version t0)
      600 token (t0 + 599) = some version ∧
    validate_download_token (create_download_token tokens token version t0)
      600 token (t0 + 600) = none ∧
    validate_download_token (create_download_token tokens token version t0)
      600 token (t0 + 601) = none := by
  have hval : ∀ dt, findToken tokens token = some dt →
      validate_download_token tokens timeout token now =
        if now - dt.created_at < timeout then some dt.version else none := by
    intro dt hdt
    unfold validate_download_token
    rw [hdt]
  have hcreate := findToken_create tokens token version t0
  refine ⟨?_, ?_, ?_, ?_, ?_, ?_⟩
  · cases hf : findToken tokens token with
    | none =>
      unfold validate_download_token
      rw [hf]
      constructor
      · intro h
        exact absurd h (by simp)
      · rintro ⟨dt, hdt, -⟩
        cases hdt
    | some dt =>
      rw [hval dt hf]
      by_cases hc : now - dt.created_at < timeout
      · rw [if_pos hc]
        exact ⟨fun _ => ⟨dt, rfl, hc⟩, fun _ => by simp⟩
      · rw [if_neg hc]
        constructor
        · intro h
          exact absurd h (by simp)
        · rintro ⟨dt', hdt', hlt⟩
          injection hdt' with h
          subst h
          exact absurd hlt hc
  · intro dt hdt hlt
    rw [hval dt hdt, if_pos hlt]
  · intro h
    unfold validate_download_token
    rw [h]
  · unfold validate_download_token
    rw [hcreate]
    show (if t0 + 599 - t0 < 600 then some version else none) = some version
    rw [if_pos (by omega)]
  · unfold validate_download_token
    rw [hcreate]
    show (if t0 + 600 - t0 < 600 then some version else none) = none
    rw [if_neg (by omega)]
  · unfold validate_download_token
    rw [hcreate]
    show (if t0 + 601 - t0 < 600 then some version else none) = none
    rw [if_neg (by omega)]

/-- Witness for C8 at a concrete issuance: a token issued at 0 redeems
at 599 and fails at 601. -/
theorem download_token_window_witness :
    validate_download_token (create_download_token [] "t" "1.0" 0) 600 "t"
        (0 + 599) = some "1.0" ∧
    validate_download_token (create_download_token [] "t" "1.0" 0) 600 "t"
        (0 + 601) = none :=
  ⟨(download_token_window [] 600 0 0 "t" "1.0").2.2.2.1,
   (download_token_window [] 600 0 0 "t" "1.0").2.2.2.2.2⟩

theorem perform_smart_backup_skip (hashFn : List LicenseModel → Nat)
    (rows : List LicenseModel) (old_hash : Nat) (ok : Bool)
    (h : hashFn rows = old_hash ∨ old_hash = 0) :
    perform_smart_backup hashFn rows old_hash ok =
      { backup_hash := hashFn rows, delivered := false, ok := true } := by
  unfold perform_smart_backup
  rw [if_pos h]

theorem perform_smart_backup_deliver (hashFn : List LicenseModel → Nat)
    (rows : List LicenseModel) (old_hash : Nat)
    (h : ¬(hashFn rows = old_hash ∨ old_hash = 0)) :
    perform_smart_backup hashFn rows old_hash true =
      { backup_hash := hashFn rows, delivered := true, ok := true } := by
  unfold perform_smart_backup
  rw [if_neg h]
  rfl

theorem perform_smart_backup_fail (hashFn : List LicenseModel → Nat)
    (rows : List LicenseModel) (old_hash : Nat)
    (h : ¬(hashFn rows = old_hash ∨ old_hash = 0)) :
    perform_smart_backup hashFn rows old_hash false =
      { backup_hash := hashFn rows, delivered := false, ok := false } := by
  unfold perform_smart_backup
  rw [if_neg h]
  rfl

/-- C5 (amended): every tick stores the freshly computed fingerprint —
unconditionally, before the comparison and before the snapshot is even
attempted — a snapshot is produced and delivered exactly when the new
fingerprint differs from the stored one, the stored one is not the 0
sentinel, and the snapshot succeeds; and a second tick over unchanged
license rows never delivers (the first tick already stored the new
fingerprint, whether or not it failed). -/
theorem perform_smart_backup_spec (hashFn : List LicenseModel → Nat)
    (rows : List LicenseModel) (old_hash : Nat) (ok1 ok2 : Bool) :
    (perform_smart_backup hashFn rows old_hash ok1).backup_hash =
      hashFn rows ∧
    ((perform_smart_backup hashFn rows old_hash ok1).delivered = true ↔
      (hashFn rows ≠ old_hash ∧ old_hash ≠ 0 ∧ ok1 = true)) ∧
    (perform_smart_backup hashFn rows
      (perform_smart_backup hashFn rows old_hash ok1).backup_hash
      ok2).delivered = false := by
  have hhash : (perform_smart_backup hashFn rows old_hash ok1).backup_hash =
      hashFn rows := by
    unfold perform_smart_backup
    split
    · rfl
    · split <;> rfl
  refine ⟨hhash, ?_, ?_⟩
  · by_cases h1 : hashFn rows = old_hash ∨ old_hash = 0
    · rw [perform_smart_backup_skip hashFn rows old_hash ok1 h1]
      constructor
      · intro h
        exact absurd h (by simp)
      · rintro ⟨hne, hnz, -⟩
        rcases h1 with h1 | h1
        · exact absurd h1 hne
        · exact absurd h1 hnz
    · cases hok : ok1 with
      | true =>
        rw [perform_smart_backup_deliver hashFn rows old_hash h1]
        push_neg at h1
        exact ⟨fun _ => ⟨h1.1, h1.2, rfl⟩, fun _ => rfl⟩
      | false =>
        rw [perform_smart_backup_fail hashFn rows old_hash h1]
        constructor
        · intro h
          exact absurd h (by simp)
        · rintro ⟨-, -, hk⟩
          cases hk
  · rw [hhash,
      perform_smart_backup_skip hashFn rows (hashFn rows) ok2 (Or.inl rfl)]

/-- Witness for C5's amended theorem: with the 0 sentinel stored, a tick
records fingerprint 7 and the following tick delivers nothing. -/
theorem perform_smart_backup_spec_witness :
    (perform_smart_backup (fun _ => 7) [] 0 true).backup_hash = 7 ∧
    (perform_smart_backup (fun _ => 7) []
      (perform_smart_backup (fun _ => 7) [] 0 true).backup_hash
      true).delivered = false :=
  ⟨(perform_smart_backup_spec (fun _ => 7) [] 0 true true).1,
   (perform_smart_backup_spec (fun _ => 7) [] 0 true true).2.2⟩

/-- C5 counterexample: a tick whose snapshot fails (`Err` return,
nothing delivered) has nevertheless replaced the stored fingerprint 5
with the new value 7 — refuting "if producing or delivering the
snapshot fails, the stored fingerprint remains unchanged". -/
theorem perform_smart_backup_counterexample :
    (perform_smart_backup (fun _ => 7) [] 5 false).ok = false ∧
    (perform_smart_backup (fun _ => 7) [] 5 false).delivered = false ∧
    (perform_smart_backup (fun _ => 7) [] 5 false).backup_hash = 7 ∧
    (7 : Nat) ≠ 5 :=
  ⟨rfl, rfl, rfl, by decide⟩

/-- C4 (amended): `claim_promo` rejects with `PromoInactive` outside the
window (store untouched) and with `PromoClaimed` when a claim record for
`(owner, promo_name)` exists (only the user row may be provisioned);
otherwise it runs two separate inserts with no transaction: if the
license insert fails nothing becomes visible, but if the claim-record
insert fails the freshly created trial license remains visible while the
claim record does not; in the failure-free run both become visible. -/
theorem claim_promo_cases (db : PromoDb) (uid : Int) (name newKey : String)
    (now : Int) (fault : DbFault) :
    (is_promo_active now = false →
      claim_promo db uid name newKey now fault =
        (db, .error .PromoInactive)) ∧
    (is_promo_active now = true →
      ∀ c, findPromo db.promos uid name = some c →
        claim_promo db uid name newKey now fault =
          ({ db with users := get_or_create db.users uid },
            .error .PromoClaimed)) ∧
    (is_promo_active now = true →
      findPromo db.promos uid name = none →
      (fault = .licenseInsertFails →
        (claim_promo db uid name newKey now fault).1.licenses =
          db.licenses ∧
        (claim_promo db uid name newKey now fault).1.promos = db.promos ∧
        (claim_promo db uid name newKey now fault).2 =
          .error .Storage) ∧
      (fault = .promoInsertFails →
        (claim_promo db uid name newKey now fault).2 = .error .Storage ∧
        (claim_promo db uid name newKey now fault).1.licenses =
          db.licenses ++ [trialLicense uid newKey 7 now] ∧
        (claim_promo db uid name newKey now fault).1.promos =
          db.promos) ∧
      (fault = .fine →
        (claim_promo db uid name newKey now fault).2 =
          .ok (trialLicense uid newKey 7 now) ∧
        (claim_promo db uid name newKey now fault).1.licenses =
          db.licenses ++ [trialLicense uid newKey 7 now] ∧
        (claim_promo db uid name newKey now fault).1.promos =
          db.promos ++ [mkClaim uid name now])) := by
  refine ⟨fun hin => ?_, fun hact c hc => ?_, fun hact hnone => ?_⟩
  · unfold claim_promo
    rw [if_pos hin]
  · unfold claim_promo
    rw [if_neg (by rw [hact]; simp), hc]
  · have hstep : claim_promo db uid name newKey now fault =
        (match createLicense { db with users := get_or_create db.users uid }
            uid newKey 7 now fault with
        | (db2, .error e) => (db2, .error e)
        | (db2, .ok lic) =>
          if fault = .promoInsertFails then (db2, .error .Storage)
          else
            ({ db2 with promos := db2.promos ++ [mkClaim uid name now] },
              .ok lic)) := by
      unfold claim_promo
      rw [if_neg (by rw [hact]; simp), hnone]
    refine ⟨fun hf => ?_, fun hf => ?_, fun hf => ?_⟩
    · subst hf
      rw [hstep]
      exact ⟨rfl, rfl, rfl⟩
    · subst hf
      rw [hstep]
      exact ⟨rfl, rfl, rfl⟩
    · subst hf
      rw [hstep]
      exact ⟨rfl, rfl, rfl⟩

/-- Witness for C4's amended theorem: a failure-free claim at the window
start creates both the trial license and the claim record. -/
theorem claim_promo_cases_witness :
    (claim_promo promoDb0 1 "p" "K" promoStart .fine).2 =
        .ok (trialLicense 1 "K" 7 promoStart) ∧
    (claim_promo promoDb0 1 "p" "K" promoStart .fine).1.licenses =
        promoDb0.licenses ++ [trialLicense 1 "K" 7 promoStart] ∧
    (claim_promo promoDb0 1 "p" "K" promoStart .fine).1.promos =
        promoDb0.promos ++ [mkClaim 1 "p" promoStart] :=
  ((claim_promo_cases promoDb0 1 "p" "K" promoStart .fine).2.2
    (by decide) rfl).2.2 rfl

/-- C4 counterexample: with the claim-record insert failing after the
license insert, `claim_promo` reports a failure yet the trial license is
visible and the claim record is not — the two writes are not atomic. -/
theorem claim_promo_atomicity_counterexample :
    is_promo_active promoStart = true ∧
    (claim_promo promoDb0 1 "p" "K" promoStart .promoInsertFails).2 =
      .error .Storage ∧
    (claim_promo promoDb0 1 "p" "K" promoStart .promoInsertFails).1.licenses
      = [trialLicense 1 "K" 7 promoStart] ∧
    (claim_promo promoDb0 1 "p" "K" promoStart
      .promoInsertFails).1.promos = [] :=
  ⟨by decide, rfl, rfl, rfl⟩
